import Mathlib

/-!
Shallow embedding of the reSApes-server backend (src/server.js and the
near-duplicate iteration src/unnamed/part_000): a recipe catalog API over a
document store with five collections (Ingredient, Unit, User, Comment,
Recipe).

Modelling conventions:
- Document ids are strings.  The mongoose store only throws a cast error for
  an id string that is not a well-formed ObjectId; this is modelled by
  `validObjectId` (24 hex characters; the 12-byte-string cast path of
  mongoose is not exercised by any input used here).
- Fallible store calls return `Except JsFault`; a handler with a local
  try/catch maps the error to its catch branch, a handler without one
  returns the `Except` itself.
- Randomness (the Fisher-Yates shuffle of the search endpoint) is passed in
  as a function `Nat -> Nat`; at loop index i the generated value is taken
  modulo i+1, matching floor(random * (i+1)).
- Resolution of references in the response payload (the populate calls) is
  not modelled: the claims checked here only concern stored id lists, the
  response bodies and the collection contents.
-/

/-- Faults a JavaScript handler can raise: a mongoose ObjectId cast error,
a ReferenceError from evaluating an unbound identifier, and a TypeError. -/
inductive JsFault where
  | castError
  | referenceError
  | typeError
deriving DecidableEq, Repr

/-- Hex digit test used by the ObjectId well-formedness check. -/
def hexDigit (c : Char) : Bool :=
  c.isDigit || ('a' ≤ c && c ≤ 'f') || ('A' ≤ c && c ≤ 'F')

/-- Well-formed mongoose ObjectId string: 24 hex characters.  Store calls
taking an id throw a cast error on any other string. -/
def validObjectId (s : String) : Bool :=
  s.length == 24 && s.toList.all hexDigit

/-- Ingredient document: src/server.js lines 10-13 (name, optional allergen
category `allergie`). -/
structure IngredientDoc where
  id : String
  name : String
  allergie : Option String
deriving DecidableEq, Repr

/-- Quantity entry of a recipe: src/server.js lines 40-46. -/
structure QtyEntry where
  quantity : Nat
  unit : String
  ingredient : String
deriving DecidableEq, Repr

/-- Recipe document: src/server.js lines 30-49.  Reference fields hold id
strings. -/
structure RecipeDoc where
  id : String
  title : String
  time : Nat
  difficulty : String
  description : String
  image : String
  instructions : List String
  ingredients : List String
  vegan : Bool
  vegetarian : Bool
  ingredientsQuantities : List QtyEntry
  createdBy : String
  comments : List String
deriving DecidableEq, Repr

/-- User document: src/server.js lines 24-28. -/
structure UserDoc where
  id : String
  email : String
  password : String
  favorites : List String
deriving DecidableEq, Repr

/-- Comment document: src/server.js lines 19-22. -/
structure CommentDoc where
  id : String
  user : String
  content : String
deriving DecidableEq, Repr

/-! ## Store primitives (mongoose model operations used by the handlers) -/

/-- Model.findById / findOne by id: cast check, then first match. -/
def findUserById (users : List UserDoc) (s : String) :
    Except JsFault (Option UserDoc) :=
  if validObjectId s then Except.ok (users.find? (fun u => u.id == s))
  else Except.error JsFault.castError

/-- Model.findOne({email, password}) used by POST /login: field query, no
cast involved. -/
def findUserByCredentials (users : List UserDoc) (e p : String) :
    Option UserDoc :=
  users.find? (fun u => u.email == e && u.password == p)

/-! ## C10: PUT /users/:id (src/server.js lines 402-407)

The handler destructures `favoriteId` from the request body and then calls
User.findByIdAndUpdate(id, body, {new:true}).  Unlike every other PUT
handler, it never binds `body`; the identifiers in scope when `body` is
evaluated are the handler locals and the module-level bindings listed
below, none of which is `body`, so evaluation raises a ReferenceError
before the store call. -/

/-- Identifiers bound inside the PUT /users/:id handler (parameters and
destructured locals), src/server.js lines 402-404. -/
def putUsersHandlerLocals : List String := ["req", "res", "id", "favoriteId", "user"]

/-- Module-level identifiers of src/server.js visible to every handler. -/
def serverModuleScope : List String :=
  ["express", "path", "multer", "readFile", "mongoose", "dotenv",
   "Ingredient", "Unit", "Comment", "User", "Recipe", "app",
   "imageStorage", "imageUpload", "auth", "initRecipes", "initDB",
   "DB_USER", "DB_PASS", "DB_HOST", "DB_NAME"]

/-- PUT /users/:id handler.  Evaluating `body` in the findByIdAndUpdate
call resolves against the scope chain; when it is unbound the handler
faults with a ReferenceError and no store operation runs (the ok branch
below is unreachable because `body` resolves nowhere). -/
def putUsersHandler (users : List UserDoc) (_rid : String) :
    Except JsFault (Option UserDoc × List UserDoc) :=
  if "body" ∈ putUsersHandlerLocals ∨ "body" ∈ serverModuleScope then
    Except.ok (none, users)
  else
    Except.error JsFault.referenceError

/-! ## C8: POST /login (src/server.js lines 430-439) -/

/-- Response body of POST /login: either {success:true, user} or
{success:false, error}. -/
inductive LoginResponse where
  | success (user : UserDoc)
  | failure (error : String)
deriving DecidableEq, Repr

/-- POST /login handler: findOne({email, password}); success with the user
when found, otherwise {success:false, error:"please try again"}.  The
handler is a total function of the store and the credentials: no exception
path exists. -/
def loginHandler (users : List UserDoc) (e p : String) : LoginResponse :=
  match findUserByCredentials users e p with
  | some user => LoginResponse.success user
  | none => LoginResponse.failure "please try again"

/-! ## C4: POST /recipes/:id/comment (src/server.js lines 249-265)

The handler saves a new comment, then runs
Recipe.findByIdAndUpdate(id, {$addToSet: {comments: comment._id}}).
$addToSet appends the value to the array only when it is absent. -/

/-- Mongoose $addToSet on an array field: append if absent. -/
def addToSetComments (comments : List String) (c : String) : List String :=
  if c ∈ comments then comments else comments ++ [c]

/-- Comment creation step of POST /recipes/:id/comment: save a new Comment
with the caller-assigned fields and a store-assigned fresh id. -/
def saveComment (store : List CommentDoc) (freshId user content : String) :
    List CommentDoc :=
  store ++ [{ id := freshId, user := user, content := content }]

/-- findByIdAndUpdate step of POST /recipes/:id/comment applied to the
recipe collection: the matched recipe gets the comment id added via
$addToSet. -/
def attachCommentToRecipes (recipes : List RecipeDoc) (rid cid : String) :
    List RecipeDoc :=
  recipes.map (fun r =>
    if r.id == rid then { r with comments := addToSetComments r.comments cid } else r)

/-! ## C6: GET /initRecipes (src/server.js lines 453-465)

initRecipes() awaits Recipe.deleteMany() and then inserts the mapped
bundled dataset (json.recipes with id set to null).  The bundled file
info.json is not part of the sources, so the dataset is a parameter; the
store-side generation of fresh _id values on insert is not modelled (the
claims about this endpoint concern the document contents of the
collection). -/

/-- Recipe.deleteMany() with no filter: empties the collection. -/
def deleteManyRecipes (_ : List RecipeDoc) : List RecipeDoc := []

/-- Recipe.insertMany(docs): appends the documents to the collection. -/
def insertManyRecipes (coll docs : List RecipeDoc) : List RecipeDoc :=
  coll ++ docs

/-- initRecipes: deleteMany, then insertMany of the mapped seed dataset. -/
def initRecipes (seed : List RecipeDoc) (coll : List RecipeDoc) :
    List RecipeDoc :=
  insertManyRecipes (deleteManyRecipes coll) seed

/-! ## GET /recipes search (src/server.js lines 104-182)

JavaScript string helpers used by the handler, modelled structurally so
that concrete runs reduce in the kernel. -/

/-- Accumulator step of String.split(","): collect characters until a comma,
emitting the finished piece at each comma and at the end. -/
def splitCommaAux : List Char → List Char → List String
  | [], acc => [String.mk acc.reverse]
  | c :: cs, acc =>
    if c = ',' then String.mk acc.reverse :: splitCommaAux cs []
    else splitCommaAux cs (c :: acc)

/-- JavaScript String.split(","): "a,b" gives ["a","b"], "" gives [""]. -/
def splitComma (s : String) : List String := splitCommaAux s.toList []

/-- ASCII model of JavaScript toLowerCase on one character. -/
def lowerChar (c : Char) : Char :=
  if 'A' ≤ c ∧ c ≤ 'Z' then Char.ofNat (c.toNat + 32) else c

/-- ASCII model of JavaScript String.toLowerCase. -/
def jsToLower (s : String) : String := String.mk (s.toList.map lowerChar)

/-- Whether the second list occurs at the head of the first. -/
def headMatches : List Char → List Char → Bool
  | _, [] => true
  | [], _ :: _ => false
  | a :: as, b :: bs => a == b && headMatches as bs

/-- Whether the second list occurs contiguously inside the first. -/
def occursIn : List Char → List Char → Bool
  | [], pat => pat.isEmpty
  | a :: rest, pat => headMatches (a :: rest) pat || occursIn rest pat

/-- JavaScript String.includes: substring containment. -/
def jsIncludes (s pat : String) : Bool := occursIn s.toList pat.toList

/-- JavaScript truthiness of an optional query-string value: present and
non-empty. -/
def truthy : Option String → Bool
  | none => false
  | some s => s ≠ ""

/-- Query facets of GET /recipes, each an optional raw query-string value
(src/server.js line 105). -/
structure Query where
  term : Option String := none
  allergies : Option String := none
  ingredients : Option String := none
  vegan : Option String := none
  vegetarian : Option String := none
deriving DecidableEq, Repr

/-- Set.add modelled on a duplicate-free list: insert at the end if absent
(the handler collects ids in a JS Set and converts with Array.from). -/
def addToIdSet (s : List String) (x : String) : List String :=
  if x ∈ s then s else s ++ [x]

/-- Allergy facet resolution (src/server.js lines 113-123): when the
allergies value is truthy, split it on commas and, for each name, add the
id of every ingredient whose allergie field equals that name.  The
length guard of the source is a no-op on the collected set and the
completion order of the awaited lookups does not change membership; the
names are folded in order. -/
def allergyIdsOf (ings : List IngredientDoc) (q : Query) : List String :=
  if truthy q.allergies then
    (splitComma (q.allergies.getD "")).foldl
      (fun acc a =>
        (ings.filter (fun i => i.allergie == some a)).foldl
          (fun acc2 i => addToIdSet acc2 i.id) acc)
      []
  else []

/-- Ingredient facet resolution (src/server.js lines 124-134): same shape,
matching on the name field. -/
def ingredientIdsOf (ings : List IngredientDoc) (q : Query) : List String :=
  if truthy q.ingredients then
    (splitComma (q.ingredients.getD "")).foldl
      (fun acc n =>
        (ings.filter (fun i => i.name == n)).foldl
          (fun acc2 i => addToIdSet acc2 i.id) acc)
      []
  else []

/-- Mongo filter built at src/server.js lines 139-157, applied to one
recipe document: ingredients $nin the allergy ids (no element of the
array is excluded), $in the ingredient ids only when that resolved list
is non-empty (some element of the array is included), and equality
filters on the vegetarian and vegan flags when those facets are truthy. -/
def mongoRecipeMatch (aIds iIds : List String) (q : Query) (r : RecipeDoc) :
    Bool :=
  r.ingredients.all (fun x => !(aIds.contains x)) &&
  (iIds.isEmpty || r.ingredients.any (fun x => iIds.contains x)) &&
  (!(truthy q.vegetarian) || r.vegetarian) &&
  (!(truthy q.vegan) || r.vegan)

/-- Post-filter on the text term (src/server.js lines 164-168): when the
term is truthy, keep recipes whose lowercased title contains the
lowercased term. -/
def termFilter (q : Query) (rs : List RecipeDoc) : List RecipeDoc :=
  if truthy q.term then
    rs.filter (fun r => jsIncludes (jsToLower r.title) (jsToLower (q.term.getD "")))
  else rs

/-- Recipes satisfying all supplied facets, in store order: Recipe.find
with the built filter, then the term post-filter. -/
def facetMatches (ings : List IngredientDoc) (recipes : List RecipeDoc)
    (q : Query) : List RecipeDoc :=
  termFilter q
    (recipes.filter (mongoRecipeMatch (allergyIdsOf ings q) (ingredientIdsOf ings q) q))

/-- One Fisher-Yates swap: exchange positions i and j when both are in
bounds (in the source they always are). -/
def swapList (l : List α) (i j : Nat) : List α :=
  match l[i]?, l[j]? with
  | some x, some y => (l.set i y).set j x
  | _, _ => l

/-- Loop of shuffleArray (src/server.js lines 170-175): for i from the
last index down to 1, swap position i with position rand i taken modulo
i+1 (the source draws floor(random * (i+1))). -/
def shuffleSteps (rand : Nat → Nat) : Nat → List RecipeDoc → List RecipeDoc
  | 0, l => l
  | Nat.succ k, l =>
    shuffleSteps rand k (swapList l (k + 1) (rand (k + 1) % (k + 2)))

/-- shuffleArray: run the loop starting at index length-1. -/
def shuffleArray (l : List RecipeDoc) (rand : Nat → Nat) : List RecipeDoc :=
  shuffleSteps rand (l.length - 1) l

/-- GET /recipes handler: facet resolution, Mongo filter, term post-filter,
then the in-place shuffle of the result. -/
def searchRecipes (ings : List IngredientDoc) (recipes : List RecipeDoc)
    (q : Query) (rand : Nat → Nat) : List RecipeDoc :=
  shuffleArray (facetMatches ings recipes q) rand

/-! ## Concrete sample store used by witnesses and counterexamples -/

/-- Sample ingredient: salt, no allergen category. -/
def saltIng : IngredientDoc :=
  { id := "aaaaaaaaaaaaaaaaaaaaaaaa", name := "salt", allergie := none }

/-- Sample ingredient: peanut, tagged with the nuts allergen. -/
def peanutIng : IngredientDoc :=
  { id := "dddddddddddddddddddddddd", name := "peanut", allergie := some "nuts" }

/-- Sample recipe containing only salt. -/
def soupRecipe : RecipeDoc :=
  { id := "bbbbbbbbbbbbbbbbbbbbbbbb", title := "soup", time := 5,
    difficulty := "easy", description := "warm", image := "soup.png",
    instructions := ["boil"], ingredients := ["aaaaaaaaaaaaaaaaaaaaaaaa"],
    vegan := false, vegetarian := true, ingredientsQuantities := [],
    createdBy := "cccccccccccccccccccccccc", comments := [] }

/-- Query supplying the single ingredient name pepper, which resolves to no
ingredient id in the sample store. -/
def qPepper : Query := { ingredients := some "pepper" }

/-- Query supplying the single ingredient name salt. -/
def qSalt : Query := { ingredients := some "salt" }

/-- Sample user. -/
def sampleUser : UserDoc :=
  { id := "eeeeeeeeeeeeeeeeeeeeeeee", email := "a@b.c", password := "pw",
    favorites := [] }

/-- Sample comment. -/
def sampleComment : CommentDoc :=
  { id := "cccccccccccccccccccccccc", user := "eeeeeeeeeeeeeeeeeeeeeeee",
    content := "tasty" }



/-! ## PUT /recipes/:id (src/server.js lines 378-384)

The handler calls Recipe.findByIdAndUpdate(id, body, {new:true}) with the
raw request body.  Mongoose wraps an update document that carries no
atomic operator in $set, so exactly the fields present in the body are
overwritten and every other stored field is kept. -/

/-- Request body of PUT /recipes/:id: any subset of the mutable recipe
fields may be present. -/
structure RecipeUpdate where
  title : Option String := none
  time : Option Nat := none
  difficulty : Option String := none
  description : Option String := none
  image : Option String := none
  instructions : Option (List String) := none
  ingredients : Option (List String) := none
  vegan : Option Bool := none
  vegetarian : Option Bool := none
  ingredientsQuantities : Option (List QtyEntry) := none
  createdBy : Option String := none
  comments : Option (List String) := none
deriving DecidableEq, Repr

/-- Mongoose $set application: each field present in the update document
replaces the stored value, each absent field keeps it. -/
def setRecipeFields (r : RecipeDoc) (u : RecipeUpdate) : RecipeDoc :=
  { r with
    title := u.title.getD r.title,
    time := u.time.getD r.time,
    difficulty := u.difficulty.getD r.difficulty,
    description := u.description.getD r.description,
    image := u.image.getD r.image,
    instructions := u.instructions.getD r.instructions,
    ingredients := u.ingredients.getD r.ingredients,
    vegan := u.vegan.getD r.vegan,
    vegetarian := u.vegetarian.getD r.vegetarian,
    ingredientsQuantities := u.ingredientsQuantities.getD r.ingredientsQuantities,
    createdBy := u.createdBy.getD r.createdBy,
    comments := u.comments.getD r.comments }
/-- Update body carrying only a title. -/
def uTitleOnly : RecipeUpdate := { title := some "stew" }

/-- Update body carrying only a description. -/
def uDescrOnly : RecipeUpdate := { description := some "hot" }

/-- Recipe.findByIdAndUpdate(id, body, {new:true}): cast check, then update
the matched document in place and return its new value (none when no
document has the id). -/
def findByIdAndUpdateRecipe (coll : List RecipeDoc) (s : String)
    (u : RecipeUpdate) : Except JsFault (Option RecipeDoc × List RecipeDoc) :=
  if validObjectId s then
    match coll.find? (fun r => r.id == s) with
    | some r =>
      Except.ok (some (setRecipeFields r u),
        coll.map (fun x => if x.id == s then setRecipeFields x u else x))
    | none => Except.ok (none, coll)
  else Except.error JsFault.castError

/-- PUT /recipes/:id handler: the findByIdAndUpdate result is sent back;
there is no try/catch, so a cast error propagates. -/
def putRecipeHandler (coll : List RecipeDoc) (s : String) (u : RecipeUpdate) :
    Except JsFault (Option RecipeDoc × List RecipeDoc) :=
  findByIdAndUpdateRecipe coll s u

/-! ## DELETE /recipes/:id (src/server.js lines 267-275) -/

/-- Recipe.findByIdAndDelete(id): cast check, then remove the matched
document, returning it (none when no document has the id, without any
exception). -/
def findByIdAndDeleteRecipe (coll : List RecipeDoc) (s : String) :
    Except JsFault (Option RecipeDoc × List RecipeDoc) :=
  if validObjectId s then
    Except.ok (coll.find? (fun r => r.id == s), coll.filter (fun r => !(r.id == s)))
  else Except.error JsFault.castError

/-- DELETE /recipes/:id handler: try/catch around findByIdAndDelete; the
response body is {msg:"Success"} whenever the store call returns (whether
or not a document was deleted) and {msg:"Failed"} when it throws. -/
def deleteRecipeHandler (coll : List RecipeDoc) (s : String) :
    String × List RecipeDoc :=
  match findByIdAndDeleteRecipe coll s with
  | Except.ok (_, coll2) => ("Success", coll2)
  | Except.error _ => ("Failed", coll)

/-! ## DELETE /recipes/:id/comment/:commentId (src/server.js lines 368-376)

The handler destructures only id from req.params and calls
Comment.findByIdAndDelete(id): the commentId path parameter is never
read. -/

/-- Comment.findByIdAndDelete(id): same shape as for recipes. -/
def findByIdAndDeleteComment (coll : List CommentDoc) (s : String) :
    Except JsFault (Option CommentDoc × List CommentDoc) :=
  if validObjectId s then
    Except.ok (coll.find? (fun c => c.id == s), coll.filter (fun c => !(c.id == s)))
  else Except.error JsFault.castError

/-- DELETE /recipes/:id/comment/:commentId handler: deletes by the id (the
recipe id) path parameter; commentId is ignored by the source. -/
def deleteCommentHandler (coll : List CommentDoc) (rid _commentId : String) :
    String × List CommentDoc :=
  match findByIdAndDeleteComment coll rid with
  | Except.ok (_, coll2) => ("Success", coll2)
  | Except.error _ => ("Failed", coll)

/-! ## Auth gate (src/server.js lines 86-102) -/

/-- Outcome of the auth middleware: 403 without running the wrapped
handler, or a call of next() which lets the wrapped handler run. -/
inductive AuthOutcome where
  | denied
  | proceeded
deriving DecidableEq, Repr

/-- auth middleware: read the id header; a falsy value (absent header or
empty string) gives 403; otherwise User.findById inside try/catch, with
403 when it throws or finds nothing, and next() when a user is found. -/
def authGate (users : List UserDoc) (hid : Option String) : AuthOutcome :=
  match hid with
  | none => AuthOutcome.denied
  | some s =>
    if s = "" then AuthOutcome.denied
    else
      match findUserById users s with
      | Except.error _ => AuthOutcome.denied
      | Except.ok none => AuthOutcome.denied
      | Except.ok (some _) => AuthOutcome.proceeded


/-! ## Permutation facts about the shuffle -/

/-- Replacing the element stored at position k and moving it to the head is
a permutation: y :: t.set k h is a rearrangement of h :: t when t holds y
at k. -/
theorem cons_set_perm {α : Type _} :
    ∀ (t : List α) (k : Nat) (y h : α), t[k]? = some y →
      List.Perm (y :: t.set k h) (h :: t)
  | [], k, y, h, hk => by simp at hk
  | a :: t, 0, y, h, hk => by
    simp at hk
    subst hk
    exact List.Perm.swap h a t
  | a :: t, Nat.succ k, y, h, hk => by
    simp at hk
    have ih := cons_set_perm t k y h hk
    refine List.Perm.trans (List.Perm.swap a y (t.set k h)) ?_
    exact List.Perm.trans (List.Perm.cons a ih) (List.Perm.swap h a t)

/-- One Fisher-Yates swap permutes the list. -/
theorem swapList_perm {α : Type _} :
    ∀ (l : List α) (i j : Nat), List.Perm (swapList l i j) l
  | [], _, _ => by simp [swapList]
  | a :: t, 0, 0 => by
    simp [swapList]
  | a :: t, 0, Nat.succ m => by
    cases hm : t[m]? with
    | none => simp [swapList, hm]
    | some y =>
      simpa [swapList, hm] using cons_set_perm t m y a hm
  | a :: t, Nat.succ k, 0 => by
    cases hk : t[k]? with
    | none => simp [swapList, hk]
    | some x =>
      simpa [swapList, hk] using cons_set_perm t k x a hk
  | a :: t, Nat.succ k, Nat.succ m => by
    cases hk : t[k]? with
    | none => simp [swapList, hk]
    | some x =>
      cases hm : t[m]? with
      | none => simp [swapList, hk, hm]
      | some y =>
        have ih := swapList_perm t k m
        simp [swapList, hk, hm] at ih ⊢
        exact ih

/-- The shuffle loop permutes the list. -/
theorem shuffleSteps_perm (rand : Nat → Nat) :
    ∀ (n : Nat) (l : List RecipeDoc), List.Perm (shuffleSteps rand n l) l
  | 0, l => List.Perm.refl l
  | Nat.succ k, l =>
    List.Perm.trans (shuffleSteps_perm rand k _)
      (swapList_perm l (k + 1) (rand (k + 1) % (k + 2)))

/-- shuffleArray returns a permutation of its input. -/
theorem shuffleArray_perm (l : List RecipeDoc) (rand : Nat → Nat) :
    List.Perm (shuffleArray l rand) l :=
  shuffleSteps_perm rand (l.length - 1) l

/-- Membership in the facet-filtered list yields the two facet guarantees:
no ingredient of the recipe lies in the allergy-resolved id set, and when
the resolved ingredient-name id set is non-empty the recipe holds at least
one of its ids. -/
theorem mem_facetMatches_props (ings : List IngredientDoc)
    (recipes : List RecipeDoc) (q : Query) (r : RecipeDoc)
    (hr : r ∈ facetMatches ings recipes q) :
    (∀ x ∈ r.ingredients, x ∉ allergyIdsOf ings q) ∧
    (ingredientIdsOf ings q ≠ [] →
      ∃ x ∈ r.ingredients, x ∈ ingredientIdsOf ings q) := by
  have hr2 : r ∈ recipes.filter
      (mongoRecipeMatch (allergyIdsOf ings q) (ingredientIdsOf ings q) q) := by
    unfold facetMatches termFilter at hr
    by_cases ht : truthy q.term
    · rw [if_pos ht] at hr
      exact (List.mem_filter.mp hr).1
    · rwa [if_neg ht] at hr
  have hmatch := (List.mem_filter.mp hr2).2
  unfold mongoRecipeMatch at hmatch
  simp only [Bool.and_eq_true, Bool.or_eq_true, List.all_eq_true,
    Bool.not_eq_true', List.any_eq_true] at hmatch
  obtain ⟨⟨⟨h1, h2⟩, _⟩, _⟩ := hmatch
  constructor
  · intro x hx
    have := h1 x hx
    simpa using this
  · intro hne
    cases h2 with
    | inl hemp =>
      exact absurd (List.isEmpty_iff.mp hemp) hne
    | inr hany =>
      obtain ⟨x, hx, hcx⟩ := hany
      exact ⟨x, hx, by simpa using hcx⟩

/-! ## Claim theorems -/

/-- C6: the seed-reload operation first deletes every recipe and then
inserts the bundled dataset, so from every starting state of the Recipe
collection, calling it twice in a row yields the same final recipe set as
calling it once. -/
theorem initRecipes_idempotent (seed coll : List RecipeDoc) :
    initRecipes seed (initRecipes seed coll) = initRecipes seed coll := rfl

/-- C10: every request to PUT /users/:id raises a ReferenceError before
reaching the store, because the update document identifier it evaluates is
never bound in its scope; no updated user is ever returned and the User
collection is left unchanged (the handler never produces an ok result
carrying a store). -/
theorem putUsersHandler_always_faults (users : List UserDoc) (rid : String) :
    putUsersHandler users rid = Except.error JsFault.referenceError := by
  simp [putUsersHandler, putUsersHandlerLocals, serverModuleScope]

/-- C8: POST /login returns {success:true, user} exactly when a stored user
has the supplied email and password pair (and then the returned user is
such a stored user), and otherwise returns the structured failure
{success:false, error:"please try again"}; being a total function of the
store and credentials, it never throws. -/
theorem loginHandler_contract (users : List UserDoc) (e p : String) :
    match loginHandler users e p with
    | LoginResponse.success u => u ∈ users ∧ u.email = e ∧ u.password = p
    | LoginResponse.failure err =>
        err = "please try again" ∧ ∀ u ∈ users, ¬(u.email = e ∧ u.password = p) := by
  unfold loginHandler findUserByCredentials
  cases h : users.find? (fun u => u.email == e && u.password == p) with
  | some u =>
    have hm := List.mem_of_find?_eq_some h
    have hp := List.find?_some h
    simp only [Bool.and_eq_true, beq_iff_eq] at hp
    exact ⟨hm, hp.1, hp.2⟩
  | none =>
    refine ⟨rfl, fun u hu hc => ?_⟩
    have := List.find?_eq_none.mp h u hu
    simp only [Bool.and_eq_true, beq_iff_eq] at this
    exact this ⟨hc.1, hc.2⟩

/-- C4: the attach-comment append ($addToSet) adds the comment id to the
recipe comment-reference list only when absent: appending the same id
twice to a list that held it at most once leaves a list holding it exactly
once, and the second append changes nothing. -/
theorem addToSetComments_dedups (l : List String) (c : String)
    (h : List.count c l ≤ 1) :
    List.count c (addToSetComments (addToSetComments l c) c) = 1 ∧
    addToSetComments (addToSetComments l c) c = addToSetComments l c := by
  by_cases hc : c ∈ l
  · have h1 : addToSetComments l c = l := by simp [addToSetComments, hc]
    have hpos : 1 ≤ List.count c l := List.count_pos_iff.mpr hc
    rw [h1, h1]
    exact ⟨Nat.le_antisymm h hpos, rfl⟩
  · have h0 : List.count c l = 0 := List.count_eq_zero.mpr hc
    have h1 : addToSetComments l c = l ++ [c] := by simp [addToSetComments, hc]
    have hc2 : c ∈ l ++ [c] := by simp
    have h2 : addToSetComments (l ++ [c]) c = l ++ [c] := by
      simp [addToSetComments, hc2]
    rw [h1, h2]
    refine ⟨?_, rfl⟩
    simp [List.count_append, h0]

/-- C4 witness: concrete run of the dedup append on an empty comment list. -/
theorem addToSetComments_dedups_witness :
    List.count "cccccccccccccccccccccccc"
      (addToSetComments (addToSetComments [] "cccccccccccccccccccccccc")
        "cccccccccccccccccccccccc") = 1 ∧
    addToSetComments (addToSetComments [] "cccccccccccccccccccccccc")
        "cccccccccccccccccccccccc" =
      addToSetComments [] "cccccccccccccccccccccccc" :=
  addToSetComments_dedups [] "cccccccccccccccccccccccc" (by decide)

/-- C5: the search result is a permutation of the list of recipes matching
all supplied facets in store order, and two searches with identical facets
over the same store have identical membership whatever their random
draws. -/
theorem searchRecipes_perm_contract (ings : List IngredientDoc)
    (recipes : List RecipeDoc) (q : Query) (rand rand2 : Nat → Nat) :
    List.Perm (searchRecipes ings recipes q rand) (facetMatches ings recipes q) ∧
    (∀ r, r ∈ searchRecipes ings recipes q rand ↔
      r ∈ searchRecipes ings recipes q rand2) := by
  refine ⟨shuffleArray_perm (facetMatches ings recipes q) rand, fun r => ?_⟩
  unfold searchRecipes
  rw [List.Perm.mem_iff (shuffleArray_perm (facetMatches ings recipes q) rand),
    List.Perm.mem_iff (shuffleArray_perm (facetMatches ings recipes q) rand2)]

/-- C1 counterexample: with the single ingredient salt stored and the
ingredient-name facet pepper supplied (a non-empty facet list that
resolves to no ingredient id), the search still returns the soup recipe,
whose ingredient set meets none of the ids resolved from the facet: the
claim that a non-empty ingredient-name facet forces an intersection is
false as stated. -/
theorem searchRecipes_nonempty_facet_counterexample :
    soupRecipe ∈ searchRecipes [saltIng] [soupRecipe] qPepper (fun _ => 0) ∧
    truthy qPepper.ingredients = true ∧
    splitComma ((qPepper.ingredients).getD "") ≠ [] ∧
    ingredientIdsOf [saltIng] qPepper = [] ∧
    ∀ x ∈ soupRecipe.ingredients, x ∉ ingredientIdsOf [saltIng] qPepper := by
  decide

/-- C1 (amended): every recipe returned by the search has an ingredient
set disjoint from the allergy-resolved id set, and, when the id set
resolved from the ingredient-name facets is non-empty, contains at least
one id from it. -/
theorem searchRecipes_facet_sound (ings : List IngredientDoc)
    (recipes : List RecipeDoc) (q : Query) (rand : Nat → Nat) (r : RecipeDoc)
    (hr : r ∈ searchRecipes ings recipes q rand) :
    (∀ x ∈ r.ingredients, x ∉ allergyIdsOf ings q) ∧
    (ingredientIdsOf ings q ≠ [] →
      ∃ x ∈ r.ingredients, x ∈ ingredientIdsOf ings q) := by
  have hr2 : r ∈ facetMatches ings recipes q := by
    have hp := shuffleArray_perm (facetMatches ings recipes q) rand
    exact (List.Perm.mem_iff hp).mp hr
  exact mem_facetMatches_props ings recipes q r hr2

/-- C1 witness: concrete search with the salt facet over the sample store,
run through the soundness theorem. -/
theorem searchRecipes_facet_sound_witness :
    (∀ x ∈ soupRecipe.ingredients, x ∉ allergyIdsOf [saltIng] qSalt) ∧
    (ingredientIdsOf [saltIng] qSalt ≠ [] →
      ∃ x ∈ soupRecipe.ingredients, x ∈ ingredientIdsOf [saltIng] qSalt) :=
  searchRecipes_facet_sound [saltIng] [soupRecipe] qSalt (fun _ => 0)
    soupRecipe (by decide)

/-- C2 counterexample: updating the stored soup recipe with a body holding
only a title keeps the previously-set description field, so the update is
not a full replace: a previously-set field absent from the body is
preserved. -/
theorem putRecipe_full_replace_counterexample :
    putRecipeHandler [soupRecipe] "bbbbbbbbbbbbbbbbbbbbbbbb" uTitleOnly =
      Except.ok (some { soupRecipe with title := "stew" },
        [{ soupRecipe with title := "stew" }]) ∧
    ({ soupRecipe with title := "stew" } : RecipeDoc).description = "warm" ∧
    soupRecipe.description = "warm" :=
  ⟨rfl, rfl, rfl⟩

/-- C2 (amended): PUT /recipes/:id merges the request body into the stored
recipe with $set semantics: each mutable field present in the body
replaces the stored value and each field absent from the body is
preserved (merge-patch, not full-replace); the id is unchanged. -/
theorem putRecipe_merges (coll : List RecipeDoc) (s : String)
    (u : RecipeUpdate) (r : RecipeDoc) (hv : validObjectId s = true)
    (hf : coll.find? (fun x => x.id == s) = some r) :
    ∃ r2, putRecipeHandler coll s u =
        Except.ok (some r2, coll.map (fun x => if x.id == s then setRecipeFields x u else x)) ∧
      r2.id = r.id ∧
      r2.title = u.title.getD r.title ∧
      r2.time = u.time.getD r.time ∧
      r2.difficulty = u.difficulty.getD r.difficulty ∧
      r2.description = u.description.getD r.description ∧
      r2.image = u.image.getD r.image ∧
      r2.instructions = u.instructions.getD r.instructions ∧
      r2.ingredients = u.ingredients.getD r.ingredients ∧
      r2.vegan = u.vegan.getD r.vegan ∧
      r2.vegetarian = u.vegetarian.getD r.vegetarian ∧
      r2.ingredientsQuantities = u.ingredientsQuantities.getD r.ingredientsQuantities ∧
      r2.createdBy = u.createdBy.getD r.createdBy ∧
      r2.comments = u.comments.getD r.comments := by
  refine ⟨setRecipeFields r u, ?_⟩
  unfold putRecipeHandler findByIdAndUpdateRecipe
  rw [if_pos hv, hf]
  exact ⟨rfl, rfl, rfl, rfl, rfl, rfl, rfl, rfl, rfl, rfl, rfl, rfl, rfl, rfl⟩

/-- C2 witness: concrete merge of a description-only body into the stored
soup recipe, run through the merge theorem. -/
theorem putRecipe_merges_witness :
    ∃ r2, putRecipeHandler [soupRecipe] "bbbbbbbbbbbbbbbbbbbbbbbb" uDescrOnly =
        Except.ok (some r2,
          [soupRecipe].map (fun x =>
            if x.id == "bbbbbbbbbbbbbbbbbbbbbbbb" then setRecipeFields x uDescrOnly else x)) ∧
      r2.id = soupRecipe.id ∧
      r2.title = uDescrOnly.title.getD soupRecipe.title ∧
      r2.time = uDescrOnly.time.getD soupRecipe.time ∧
      r2.difficulty = uDescrOnly.difficulty.getD soupRecipe.difficulty ∧
      r2.description = uDescrOnly.description.getD soupRecipe.description ∧
      r2.image = uDescrOnly.image.getD soupRecipe.image ∧
      r2.instructions = uDescrOnly.instructions.getD soupRecipe.instructions ∧
      r2.ingredients = uDescrOnly.ingredients.getD soupRecipe.ingredients ∧
      r2.vegan = uDescrOnly.vegan.getD soupRecipe.vegan ∧
      r2.vegetarian = uDescrOnly.vegetarian.getD soupRecipe.vegetarian ∧
      r2.ingredientsQuantities =
        uDescrOnly.ingredientsQuantities.getD soupRecipe.ingredientsQuantities ∧
      r2.createdBy = uDescrOnly.createdBy.getD soupRecipe.createdBy ∧
      r2.comments = uDescrOnly.comments.getD soupRecipe.comments :=
  putRecipe_merges [soupRecipe] "bbbbbbbbbbbbbbbbbbbbbbbb" uDescrOnly
    soupRecipe (by decide) (by decide)

/-- C3 counterexample: deleting a well-formed id from an empty Recipe
collection answers with the success body {msg:"Success"}, not the failure
body, although the id identifies no existing record. -/
theorem deleteRecipe_missing_id_counterexample :
    deleteRecipeHandler [] "aaaaaaaaaaaaaaaaaaaaaaaa" = ("Success", []) ∧
    (deleteRecipeHandler [] "aaaaaaaaaaaaaaaaaaaaaaaa").1 ≠ "Failed" := by
  decide

/-- C3 (amended): no exception escapes DELETE /recipes/:id and every run
answers with one of exactly two bodies: the success body {msg:"Success"}
whenever the id casts to an ObjectId (also when it identifies no existing
record, since the store lookup then returns null without throwing), and
the failure body {msg:"Failed"} when the cast fails and the thrown error
is caught. -/
theorem deleteRecipe_two_outcomes (coll : List RecipeDoc) (s : String) :
    (deleteRecipeHandler coll s).1 =
      (if validObjectId s then "Success" else "Failed") ∧
    ((deleteRecipeHandler coll s).1 = "Success" ∨
      (deleteRecipeHandler coll s).1 = "Failed") := by
  unfold deleteRecipeHandler findByIdAndDeleteRecipe
  by_cases hv : validObjectId s
  · rw [if_pos hv, if_pos hv]
    exact ⟨rfl, Or.inl rfl⟩
  · rw [if_neg hv, if_neg hv]
    exact ⟨rfl, Or.inr rfl⟩

/-- C7: the auth gate lets the wrapped operation run exactly when the
caller supplied an id header naming a stored user, and denies access (403
before the wrapped handler) otherwise; stored ids are assumed well-formed
ObjectIds, which the store guarantees. -/
theorem authGate_contract (users : List UserDoc) (hid : Option String)
    (hwf : ∀ u ∈ users, validObjectId u.id = true) :
    (authGate users hid = AuthOutcome.proceeded ↔
      ∃ s, hid = some s ∧ ∃ u ∈ users, u.id = s) ∧
    (authGate users hid = AuthOutcome.denied ↔
      ¬∃ s, hid = some s ∧ ∃ u ∈ users, u.id = s) := by
  have key : authGate users hid = AuthOutcome.proceeded ↔
      ∃ s, hid = some s ∧ ∃ u ∈ users, u.id = s := by
    cases hid with
    | none => simp [authGate]
    | some s =>
      constructor
      · intro h
        by_cases hs : s = ""
        · rw [hs] at h
          simp [authGate] at h
        · by_cases hv : validObjectId s
          · cases hfind : users.find? (fun u => u.id == s) with
            | some u =>
              exact ⟨s, rfl, u, List.mem_of_find?_eq_some hfind,
                by simpa using List.find?_some hfind⟩
            | none =>
              have hden : authGate users (some s) = AuthOutcome.denied := by
                simp [authGate, findUserById, hs, hv, hfind]
              rw [hden] at h
              simp at h
          · have hden : authGate users (some s) = AuthOutcome.denied := by
              simp [authGate, findUserById, hs, hv]
            rw [hden] at h
            simp at h
      · rintro ⟨s2, hs2, u, hu, hids⟩
        cases hs2
        have hvs : validObjectId s = true := by
          rw [← hids]
          exact hwf u hu
        have hs : ¬s = "" := by
          intro h0
          rw [h0] at hvs
          simp [validObjectId] at hvs
        cases hfind : users.find? (fun x => x.id == s) with
        | some u2 => simp [authGate, findUserById, hs, hvs, hfind]
        | none =>
          have hcontra := List.find?_eq_none.mp hfind u hu
          simp [hids] at hcontra
  refine ⟨key, ?_, ?_⟩
  · intro hd hex
    rw [hd] at key
    have := key.mpr hex
    simp at this
  · intro hnex
    cases hout : authGate users hid with
    | denied => rfl
    | proceeded =>
      rw [hout] at key
      exact absurd (key.mp rfl) hnex

/-- C7 witness: concrete run of the gate contract with the sample user and
its id supplied in the header. -/
theorem authGate_contract_witness :
    (authGate [sampleUser] (some "eeeeeeeeeeeeeeeeeeeeeeee") = AuthOutcome.proceeded ↔
      ∃ s, (some "eeeeeeeeeeeeeeeeeeeeeeee" : Option String) = some s ∧
        ∃ u ∈ [sampleUser], u.id = s) ∧
    (authGate [sampleUser] (some "eeeeeeeeeeeeeeeeeeeeeeee") = AuthOutcome.denied ↔
      ¬∃ s, (some "eeeeeeeeeeeeeeeeeeeeeeee" : Option String) = some s ∧
        ∃ u ∈ [sampleUser], u.id = s) :=
  authGate_contract [sampleUser] (some "eeeeeeeeeeeeeeeeeeeeeeee") (by decide)

/-- C9: DELETE /recipes/:id/comment/:commentId passes the recipe id, not
the commentId path parameter, to the comment deletion: with the sample
comment stored and distinct path parameters, the handler answers Success
while the comment identified by commentId is still stored afterwards. -/
theorem deleteComment_ignores_commentId :
    deleteCommentHandler [sampleComment] "bbbbbbbbbbbbbbbbbbbbbbbb"
        "cccccccccccccccccccccccc" = ("Success", [sampleComment]) ∧
    sampleComment.id = "cccccccccccccccccccccccc" := by
  decide
